import Mathlib

/-!
Shallow embedding of `teleop/utils/data_process/check_data_integrity.py`
(class `DataIntegrityChecker`) from the xr_teleoperate repository, together
with proofs about the checker's behaviour.

Modelling conventions:
* A parsed JSON record is modelled by `EpisodeRecord`; a JSON key that may be
  absent becomes an `Option` field (`none` = key absent).
* JSON objects with dynamic keys (`colors`, `depths`, `states`, `actions`,
  the `text` section) become association lists `List (String × τ)`.
* Python floats become `Rat` (the checks only compare against the constants
  0.5 and 10, so exact rational arithmetic is a faithful model of the
  comparisons performed).
* The filesystem is modelled as the list of (relative) paths that exist under
  the episode directory; `Path(data_dir) / p` existing becomes `fs.contains p`.
* Python f-string messages are reproduced verbatim except for numeric
  formatting of rationals (`{diff:.3f}` is rendered by `Rat`'s `toString`).
* `_check_data_continuity` indexes `frame['idx']` without a guard, so it
  raises `KeyError` when a frame lacks `idx` and there are at least two
  frames; the embedding returns `none` (crash) in exactly that situation,
  hence `checkAll` returns `Option Report`.
-/

namespace DataCheck

/-- One body-part record under `states`/`actions`; only `qpos` is inspected. -/
structure PartData where
  qpos : Option (List Rat)
deriving DecidableEq, Inhabited

/-- One element of the `data` array of the episode record. -/
structure Frame where
  idx : Option Int
  colors : Option (List (String × String))
  depths : Option (List (String × String))
  audios : Option String
  states : Option (List (String × PartData))
  actions : Option (List (String × PartData))
  sub_index : Option Int
deriving DecidableEq, Inhabited

/-- Parsed top-level episode record (result of a successful `_load_json`). -/
structure EpisodeRecord where
  info : Option (List String)            -- key set of the `info` object
  text : Option (List (String × String)) -- the `text` object
  data : Option (List Frame)             -- the `data` array
deriving DecidableEq, Inhabited

/-- A sub-task transition, as built in `_check_sub_index`. -/
structure Transition where
  from_idx : Nat
  to_idx : Nat
  from_sub : Int
  to_sub : Int
deriving DecidableEq, Inhabited

/-- A maximal run of frames sharing one `sub_index`, as built in
`_check_sub_index` (`stop` renders the Python key `end`). -/
structure Segment where
  sub_index : Int
  start : Nat
  stop : Nat
  length : Nat
deriving DecidableEq, Inhabited

/-! ### `_check_data_structure` / `_check_info_section` / `_check_text_section` -/

/-- Errors of `_check_data_structure`: one per missing required top-level key. -/
def structureErrors (rec : EpisodeRecord) : List String :=
  (if rec.info.isSome then [] else ["缺少必需字段: info"]) ++
  (if rec.text.isSome then [] else ["缺少必需字段: text"]) ++
  (if rec.data.isSome then [] else ["缺少必需字段: data"])

def requiredInfoFields : List String :=
  ["version", "date", "author", "image", "depth", "joint_names"]

/-- Errors of `_check_info_section` (stat collection is print-only). -/
def infoErrors (info : List String) : List String :=
  requiredInfoFields.filterMap (fun f =>
    if info.contains f then none else some (s!"info缺少字段: {f}"))

/-- Warnings of `_check_text_section`: a present-but-falsy field warns. -/
def textWarnings (text : List (String × String)) : List String :=
  ["goal", "desc", "steps"].filterMap (fun f =>
    match text.lookup f with
    | none => none
    | some v => if v = "" then some (s!"text.{f} 为空") else none)

/-! ### `_check_data_array` -/

def requiredFrameParts : List String :=
  ["left_arm", "right_arm", "left_ee", "right_ee", "body"]

/-- Per-section `qpos` errors inside `_check_data_array`: for each listed body
part that is present, its record must contain `qpos`. -/
def qposErrors (i : Nat) (sectionName : String)
    (sec : List (String × PartData)) : List String :=
  requiredFrameParts.filterMap (fun part =>
    match sec.lookup part with
    | none => none
    | some pd =>
      if pd.qpos.isSome then none
      else some (s!"帧 {i} {sectionName}.{part} 缺少qpos"))

/-- Rendering of `frame.get('idx')` in the mismatch message. -/
def optIntStr : Option Int → String
  | none => "None"
  | some n => toString n

/-- All errors `_check_data_array` records for frame `i`. -/
def frameErrors (i : Nat) (f : Frame) : List String :=
  (if f.idx.isSome then [] else [s!"帧 {i} 缺少字段: idx"]) ++
  (if f.colors.isSome then [] else [s!"帧 {i} 缺少字段: colors"]) ++
  (if f.depths.isSome then [] else [s!"帧 {i} 缺少字段: depths"]) ++
  (if f.states.isSome then [] else [s!"帧 {i} 缺少字段: states"]) ++
  (if f.actions.isSome then [] else [s!"帧 {i} 缺少字段: actions"]) ++
  (if f.idx = some (i : Int) then []
   else
     let actual := optIntStr f.idx
     [s!"帧 {i} 的idx不匹配: 期望 {i}, 实际 {actual}"]) ++
  (match f.states with
   | some sec => qposErrors i "states" sec
   | none => []) ++
  (match f.actions with
   | some sec => qposErrors i "actions" sec
   | none => [])

/-- The `for i, frame in enumerate(data_array)` loop of `_check_data_array`. -/
def frameErrorsFrom (i : Nat) : List Frame → List String
  | [] => []
  | f :: rest => frameErrors i f ++ frameErrorsFrom (i + 1) rest

/-- Errors of `_check_data_array`. -/
def dataArrayErrors (arr : List Frame) : List String :=
  if arr.isEmpty then ["data数组为空"] else frameErrorsFrom 0 arr

/-! ### `_check_image_files` -/

/-- The `missing_images` list: one entry per `colors` reference whose path
does not exist, in frame order. -/
def missingImagesFrom (fs : List String) (i : Nat) : List Frame → List String
  | [] => []
  | f :: rest =>
    (f.colors.getD []).filterMap (fun cp =>
      if fs.contains cp.2 then none
      else
        let p := cp.2
        some (s!"帧 {i}: {p}")) ++
    missingImagesFrom fs (i + 1) rest

def missingImages (arr : List Frame) (fs : List String) : List String :=
  missingImagesFrom fs 0 arr

/-- `camera_counts[camera_id] = camera_counts.get(camera_id, 0) + 1`:
insertion-ordered dictionary bump. -/
def bumpCamera (m : List (String × Nat)) (cam : String) : List (String × Nat) :=
  match m with
  | [] => [(cam, 1)]
  | (c, n) :: rest =>
    if c = cam then (c, n + 1) :: rest else (c, n) :: bumpCamera rest cam

/-- The `camera_counts` dictionary accumulated by `_check_image_files`
(independent of file existence: the bump happens before the existence test). -/
def cameraCounts (arr : List Frame) : List (String × Nat) :=
  arr.foldl (fun m f => (f.colors.getD []).foldl (fun m2 cp => bumpCamera m2 cp.1) m) []

/-- Errors appended by `_check_image_files`: a summary line, then all missing
entries when at most 10, otherwise the first 5 plus an ellipsis line. -/
def imageErrors (arr : List Frame) (fs : List String) : List String :=
  let missing := missingImages arr fs
  if missing.isEmpty then []
  else
    let n := missing.length
    let rest := n - 5
    (s!"缺少 {n} 个图像文件") ::
    (if n ≤ 10 then missing.map (fun m => "  缺失: " ++ m)
     else (missing.take 5).map (fun m => "  缺失: " ++ m) ++
          [s!"  ... 还有 {rest} 个文件缺失"])

/-! ### `_check_depth_files` / `_check_audio_files` -/

/-- `if depths:` — a frame contributes to `has_depth` iff its `depths`
mapping is present and non-empty. -/
def hasDepth (arr : List Frame) : Bool :=
  arr.any (fun f => !(f.depths.getD []).isEmpty)

def missingDepthsFrom (fs : List String) (i : Nat) : List Frame → List String
  | [] => []
  | f :: rest =>
    (f.depths.getD []).filterMap (fun dp =>
      if fs.contains dp.2 then none
      else
        let p := dp.2
        some (s!"帧 {i}: {p}")) ++
    missingDepthsFrom fs (i + 1) rest

def missingDepths (arr : List Frame) (fs : List String) : List String :=
  missingDepthsFrom fs 0 arr

/-- `(errors, warnings)` appended by `_check_depth_files`. -/
def depthFindings (arr : List Frame) (fs : List String) : List String × List String :=
  if !hasDepth arr then ([], ["没有深度数据"])
  else
    let missing := missingDepths arr fs
    if missing.isEmpty then ([], [])
    else
      let n := missing.length
      ([s!"缺少 {n} 个深度文件"], [])

/-- `if audios:` — Python truthiness of the (string) `audios` value. -/
def audioTruthy (f : Frame) : Bool :=
  match f.audios with
  | none => false
  | some s => !(s = "")

def hasAudio (arr : List Frame) : Bool :=
  arr.any audioTruthy

def missingAudiosFrom (fs : List String) (i : Nat) : List Frame → List String
  | [] => []
  | f :: rest =>
    (match f.audios with
     | none => []
     | some s =>
       if s = "" then []
       else if fs.contains s then []
       else [s!"帧 {i}: {s}"]) ++
    missingAudiosFrom fs (i + 1) rest

def missingAudios (arr : List Frame) (fs : List String) : List String :=
  missingAudiosFrom fs 0 arr

/-- `(errors, warnings)` appended by `_check_audio_files`. -/
def audioFindings (arr : List Frame) (fs : List String) : List String × List String :=
  if !hasAudio arr then ([], ["没有音频数据"])
  else
    let missing := missingAudios arr fs
    if missing.isEmpty then ([], [])
    else
      let n := missing.length
      ([s!"缺少 {n} 个音频文件"], [])

/-! ### `_check_data_continuity` / `_check_joint_continuity` -/

/-- The warning appended when there are fewer than 2 frames. -/
def tooFewFramesWarning : String := "数据帧数太少，无法检查连续性"

/-- The `qpos` vector `frame['states'][part].get('qpos', [])`, guarded by
`part in frame.get('states', {})`; `none` when the part is absent. -/
def qposOf (f : Frame) (part : String) : Option (List Rat) :=
  match (f.states.getD []).lookup part with
  | none => none
  | some pd => some (pd.qpos.getD [])

def max_jump_threshold : Rat := 0.5

/-- Python's `abs` on a rational value, as an executable definition. -/
def ratAbs (q : Rat) : Rat := if q < 0 then -q else q

/-- Jump messages contributed by one body part of one consecutive frame pair
`(i-1, i)` (the innermost loop of `_check_joint_continuity`): both frames
must carry the part, the `qpos` lengths must match, and each joint whose
absolute difference exceeds the threshold yields one message. -/
def jumpMsgsPart (prev curr : Frame) (i : Nat) (part : String) : List String :=
  match qposOf prev part, qposOf curr part with
  | some pq, some cq =>
    if pq.length = cq.length then
      ((pq.zip cq).enum).filterMap (fun jp =>
        let j := jp.1
        let d := ratAbs (jp.2.2 - jp.2.1)
        if d > max_jump_threshold then some (s!"帧 {i} {part}[{j}]: 跳变 {d}")
        else none)
    else []
  | _, _ => []

/-- Jump messages contributed by one consecutive frame pair `(i-1, i)`
(the `for part in ['left_arm', 'right_arm']` loop). -/
def jumpMsgs (prev curr : Frame) (i : Nat) : List String :=
  ["left_arm", "right_arm"].flatMap (jumpMsgsPart prev curr i)

/-- The `large_jumps` list of `_check_joint_continuity`.
`for i in range(1, min(len(data_array), 100))` visits the frame pairs
`(i-1, i)`, i.e. the first `min(len,100) - 1` (= at most 99) consecutive
pairs of the array, realised here as `(arr.zip arr.tail).take 99`. -/
def largeJumps (arr : List Frame) : List String :=
  (((arr.zip arr.tail).take 99).enum).flatMap (fun p =>
    jumpMsgs p.2.1 p.2.2 (p.1 + 1))

/-- Warnings appended by `_check_joint_continuity`: summary plus first 5. -/
def jointContinuityWarnings (arr : List Frame) : List String :=
  let jumps := largeJumps arr
  if jumps.isEmpty then []
  else
    let n := jumps.length
    (s!"发现 {n} 处关节位置大幅跳变") :: (jumps.take 5).map (fun j => "  " ++ j)

/-- Gap messages of the idx-contiguity loop, given all frame `idx` values. -/
def gapMsgs (idxs : List Int) : List String :=
  ((idxs.zip idxs.tail).enum).filterMap (fun p =>
    let j := p.1
    let i := p.1 + 1
    let a := p.2.1
    let b := p.2.2
    if b ≠ a + 1 then some (s!"帧 {j} -> {i}: idx从 {a} 跳到 {b}") else none)

/-- Warnings appended by `_check_data_continuity`.  Returns `none` when the
source raises `KeyError` (a frame without `idx` while at least two frames
exist: the loop indexes `data_array[i]['idx']` unguarded). -/
def continuityFindings (arr : List Frame) : Option (List String) :=
  if arr.length < 2 then some [tooFewFramesWarning]
  else
    match arr.mapM Frame.idx with
    | none => none
    | some idxs =>
      let gaps := gapMsgs idxs
      let gapWarnings :=
        if gaps.isEmpty then []
        else
          let n := gaps.length
          (s!"发现 {n} 处idx不连续") :: (gaps.take 5).map (fun g => "  " ++ g)
      some (gapWarnings ++ jointContinuityWarnings arr)

/-! ### `_check_value_ranges` -/

/-- Out-of-range messages of `_check_value_ranges` over the first 100 frames. -/
def rangeMsgsFrom (i : Nat) : List Frame → List String
  | [] => []
  | f :: rest =>
    (["left_arm", "right_arm"].flatMap (fun part =>
      match qposOf f part with
      | none => []
      | some qpos =>
        (qpos.enum).filterMap (fun jq =>
          let j := jq.1
          let q := jq.2
          if ratAbs q > 10 then some (s!"帧 {i} {part}[{j}]: {q}") else none))) ++
    rangeMsgsFrom (i + 1) rest

def rangeMsgs (arr : List Frame) : List String :=
  rangeMsgsFrom 0 (arr.take 100)

/-- Warnings appended by `_check_value_ranges`: summary plus first 5. -/
def valueRangeWarnings (arr : List Frame) : List String :=
  let errs := rangeMsgs arr
  if errs.isEmpty then []
  else
    let n := errs.length
    (s!"发现 {n} 处关节位置超出正常范围") :: (errs.take 5).map (fun e => "  " ++ e)

/-! ### `_check_sub_index` -/

/-- Indices of frames lacking `sub_index` (the `missing_sub_index` list). -/
def missingSubIndexFrom (i : Nat) : List Frame → List Nat
  | [] => []
  | f :: rest =>
    (if f.sub_index.isSome then [] else [i]) ++ missingSubIndexFrom (i + 1) rest

def missingSubIndex (arr : List Frame) : List Nat :=
  missingSubIndexFrom 0 arr

/-- Errors appended when some frames lack `sub_index`: summary, then all
indices when at most 10, otherwise the first 5 plus an ellipsis line. -/
def missingSubIndexErrors (missing : List Nat) : List String :=
  let n := missing.length
  let rest := n - 5
  (s!"有 {n} 帧缺少sub_index字段") ::
  (if n ≤ 10 then missing.map (fun idx => s!"  帧 {idx} 缺少sub_index")
   else (missing.take 5).map (fun idx => s!"  帧 {idx} 缺少sub_index") ++
        [s!"  ... 还有 {rest} 帧缺失"])

/-- Insertion into a sorted list of `Int`s. -/
def insertSorted (x : Int) : List Int → List Int
  | [] => [x]
  | y :: ys => if x ≤ y then x :: y :: ys else y :: insertSorted x ys

def sortInts (l : List Int) : List Int := l.foldr insertSorted []

/-- Remove adjacent duplicates of a (sorted) list. -/
def dedupAdj : List Int → List Int
  | [] => []
  | [x] => [x]
  | x :: y :: ys => if x = y then dedupAdj (y :: ys) else x :: dedupAdj (y :: ys)

/-- `sorted(set(sub_indices))`. -/
def sortedUnique (l : List Int) : List Int := dedupAdj (sortInts l)

/-- The transition list built by `_check_sub_index`. -/
def transitionsOf (subs : List Int) : List Transition :=
  ((subs.zip subs.tail).enum).filterMap (fun p =>
    let j := p.1
    let a := p.2.1
    let b := p.2.2
    if b ≠ a then some ⟨j, j + 1, a, b⟩ else none)

/-- The `non_monotonic` message list (strict decreases between neighbours). -/
def nonMonotonic (subs : List Int) : List String :=
  ((subs.zip subs.tail).enum).filterMap (fun p =>
    let j := p.1
    let i := p.1 + 1
    let a := p.2.1
    let b := p.2.2
    if b < a then some (s!"帧 {j} -> {i}: {a} -> {b}") else none)

/-- Density warning: the sorted distinct labels must equal `0..k-1`. -/
def densityWarnings (subs : List Int) : List String :=
  let uniq := sortedUnique subs
  let expected := (List.range uniq.length).map (fun n => (n : Int))
  if uniq ≠ expected then [s!"sub_index不连续: {uniq}, 期望: {expected}"] else []

/-- Warnings of the monotonicity step: summary plus first 5. -/
def monotonicWarnings (subs : List Int) : List String :=
  let nm := nonMonotonic subs
  if nm.isEmpty then []
  else
    let n := nm.length
    (s!"sub_index不是单调递增的，发现 {n} 处回退") :: (nm.take 5).map (fun m => "  " ++ m)

/-- The segment-building loop: `current`/`segment_start` walk with final push. -/
def segmentsAux (current : Int) (start : Nat) (i : Nat) : List Int → List Segment
  | [] => [⟨current, start, i - 1, i - start⟩]
  | x :: xs =>
    if x ≠ current then
      ⟨current, start, i - 1, i - start⟩ :: segmentsAux x i (i + 1) xs
    else segmentsAux current start (i + 1) xs

/-- The segment list built by `_check_sub_index` (the source only reaches this
code with a non-empty array; `[]` maps to no segments). -/
def segmentsOf (subs : List Int) : List Segment :=
  match subs with
  | [] => []
  | x :: xs => segmentsAux x 0 1 xs

def min_segment_length : Nat := 10

def shortSegments (segs : List Segment) : List Segment :=
  segs.filter (fun s => s.length < min_segment_length)

/-- Warnings of the segment-length step: summary plus one line per short
segment (uncapped). -/
def shortSegmentWarnings (segs : List Segment) : List String :=
  let short := shortSegments segs
  if short.isEmpty then []
  else
    let n := short.length
    (s!"发现 {n} 个过短的子任务段（< 10 帧）") ::
    short.map (fun s =>
      let lbl := s.sub_index
      let len := s.length
      s!"  sub_index {lbl}: {len} 帧")

/-- Outcome of `_check_sub_index`: appended errors and warnings, plus the
analysis results stored in `stats` (`none` when the step was not reached). -/
structure SubIndexResult where
  errors : List String
  warnings : List String
  transitions : Option (List Transition)
  segments : Option (List Segment)
deriving DecidableEq, Inhabited

/-- `_check_sub_index`: early return on empty array; hard error and early
return when any frame lacks `sub_index`; otherwise the distribution,
transition, density, monotonicity and segment analyses. -/
def checkSubIndex (arr : List Frame) : SubIndexResult :=
  if arr.isEmpty then ⟨[], [], none, none⟩
  else
    let missing := missingSubIndex arr
    if missing.isEmpty then
      let subs := arr.filterMap Frame.sub_index
      ⟨[],
       densityWarnings subs ++ monotonicWarnings subs ++
         shortSegmentWarnings (segmentsOf subs),
       some (transitionsOf subs),
       some (segmentsOf subs)⟩
    else ⟨missingSubIndexErrors missing, [], none, none⟩

/-! ### `check_all` and the report -/

/-- The report of `_get_report`, restricted to the fields the analyses
compute (`stats` entries that are only echoes of the input, such as
`file_size_mb` or `total_frames`, are not modelled). -/
structure Report where
  success : Bool
  errors : List String
  warnings : List String
  camera_counts : List (String × Nat)
  sub_transitions : Option (List Transition)
  sub_segments : Option (List Segment)
deriving DecidableEq, Inhabited

/-- All errors accumulated by checks 3–12 of `check_all`, in append order. -/
def allErrors (rec : EpisodeRecord) (fs : List String) : List String :=
  let arr := rec.data.getD []
  structureErrors rec ++
  infoErrors (rec.info.getD []) ++
  dataArrayErrors arr ++
  imageErrors arr fs ++
  (depthFindings arr fs).1 ++
  (audioFindings arr fs).1 ++
  (checkSubIndex arr).errors

/-- All warnings accumulated by checks 3–12, given the continuity warnings. -/
def allWarnings (rec : EpisodeRecord) (fs : List String)
    (contWarnings : List String) : List String :=
  let arr := rec.data.getD []
  textWarnings (rec.text.getD []) ++
  (depthFindings arr fs).2 ++
  (audioFindings arr fs).2 ++
  contWarnings ++
  valueRangeWarnings arr ++
  (checkSubIndex arr).warnings

def buildReport (rec : EpisodeRecord) (fs : List String)
    (contWarnings : List String) : Report :=
  let arr := rec.data.getD []
  let errors := allErrors rec fs
  ⟨errors.isEmpty, errors, allWarnings rec fs contWarnings,
   cameraCounts arr, (checkSubIndex arr).transitions, (checkSubIndex arr).segments⟩

/-- `check_all` after a successful load: runs every check, returns the report
(success iff the error list is empty).  `none` models the uncaught
`KeyError` of `_check_data_continuity`. -/
def checkAll (rec : EpisodeRecord) (fs : List String) : Option Report :=
  match continuityFindings (rec.data.getD []) with
  | none => none
  | some contWarnings => some (buildReport rec fs contWarnings)

/-- Outcome of steps 1–2 of `check_all` (`_check_file_exists`, `_load_json`). -/
inductive LoadOutcome where
  | fileMissing (path : String)
  | notAFile (path : String)
  | parseError (msg : String)
  | readError (msg : String)
  | ok (rec : EpisodeRecord)
deriving DecidableEq

/-- The single error recorded for a failed load, `none` on success. -/
def loadErrorMsg : LoadOutcome → Option String
  | .fileMissing p => some (s!"数据文件不存在: {p}")
  | .notAFile p => some (s!"路径不是文件: {p}")
  | .parseError m => some (s!"JSON解析错误: {m}")
  | .readError m => some (s!"读取文件错误: {m}")
  | .ok _ => none

/-- `check_all` from the start: a failed load short-circuits with only the
load error recorded; a successful load runs all remaining checks. -/
def checkAllFromLoad (lo : LoadOutcome) (fs : List String) : Option Report :=
  match lo with
  | .ok rec => checkAll rec fs
  | .fileMissing p => some ⟨false, [s!"数据文件不存在: {p}"], [], [], none, none⟩
  | .notAFile p => some ⟨false, [s!"路径不是文件: {p}"], [], [], none, none⟩
  | .parseError m => some ⟨false, [s!"JSON解析错误: {m}"], [], [], none, none⟩
  | .readError m => some ⟨false, [s!"读取文件错误: {m}"], [], [], none, none⟩

/-! ### Well-formedness -/

/-- Every listed body part present in the section carries `qpos`. -/
def partsOkB (sec : List (String × PartData)) : Bool :=
  requiredFrameParts.all (fun part =>
    match sec.lookup part with
    | none => true
    | some pd => pd.qpos.isSome)

/-- The conditions `_check_data_array` enforces on frame `i`: all five
required keys present, `idx` equal to the position, `qpos` present for every
listed body part of `states`/`actions`. -/
def frameStructOkB (i : Nat) (f : Frame) : Bool :=
  f.idx.isSome && f.colors.isSome && f.depths.isSome &&
  f.states.isSome && f.actions.isSome &&
  decide (f.idx = some (i : Int)) &&
  (match f.states with
   | some sec => partsOkB sec
   | none => true) &&
  (match f.actions with
   | some sec => partsOkB sec
   | none => true)

/-- All image paths referenced by the frame exist. -/
def colorsOkB (fs : List String) (f : Frame) : Bool :=
  (f.colors.getD []).all (fun cp => fs.contains cp.2)

/-- All depth paths referenced by the frame exist. -/
def depthsOkB (fs : List String) (f : Frame) : Bool :=
  (f.depths.getD []).all (fun dp => fs.contains dp.2)

/-- The audio path referenced by the frame (a truthy `audios` value) exists. -/
def audioOkB (fs : List String) (f : Frame) : Bool :=
  match f.audios with
  | none => true
  | some s => (s = "") || fs.contains s

/-- The record state in which the checker accumulates no error: required
top-level and `info` fields present, a non-empty frame array, every frame
structurally complete with matching `idx`, every referenced media path
existing, and `sub_index` present on every frame. -/
def wellFormedB (rec : EpisodeRecord) (fs : List String) : Bool :=
  let arr := rec.data.getD []
  rec.info.isSome && rec.text.isSome && rec.data.isSome &&
  requiredInfoFields.all (fun k => (rec.info.getD []).contains k) &&
  !arr.isEmpty &&
  (arr.enum).all (fun p => frameStructOkB p.1 p.2) &&
  arr.all (colorsOkB fs) &&
  arr.all (depthsOkB fs) &&
  arr.all (audioOkB fs) &&
  arr.all (fun f => f.sub_index.isSome)

/-! ### Generic helper lemmas -/

theorem ite_none_some_eq_none {c : Prop} [Decidable c] {β : Type} {m : β} :
    (if c then (none : Option β) else some m) = none ↔ c := by
  split <;> simp_all

theorem ite_nil_cons_eq_nil {c : Prop} [Decidable c] {x : String} {l : List String} :
    (if c then ([] : List String) else x :: l) = [] ↔ c := by
  split <;> simp_all

/-! ### Emptiness characterisations of the error sources -/

theorem structureErrors_eq_nil (rec : EpisodeRecord) :
    structureErrors rec = [] ↔
      (rec.info.isSome && rec.text.isSome && rec.data.isSome) = true := by
  rcases rec with ⟨i, t, d⟩
  cases i <;> cases t <;> cases d <;> simp [structureErrors]

theorem infoErrors_eq_nil (info : List String) :
    infoErrors info = [] ↔
      (requiredInfoFields.all fun k => info.contains k) = true := by
  rw [infoErrors, List.filterMap_eq_nil_iff, List.all_eq_true]
  refine forall₂_congr fun f _ => ?_
  simp [ite_none_some_eq_none]

theorem qposErrors_eq_nil (i : Nat) (s : String) (sec : List (String × PartData)) :
    qposErrors i s sec = [] ↔ partsOkB sec = true := by
  rw [qposErrors, partsOkB, List.filterMap_eq_nil_iff, List.all_eq_true]
  refine forall₂_congr fun part _ => ?_
  cases hl : sec.lookup part with
  | none => simp
  | some pd => cases hq : pd.qpos <;> simp [hq]

theorem frameErrors_eq_nil (i : Nat) (f : Frame) :
    frameErrors i f = [] ↔ frameStructOkB i f = true := by
  rcases f with ⟨idx, colors, depths, audios, states, actions, sub⟩
  rw [frameErrors, frameStructOkB]
  cases states <;> cases actions <;>
    simp [List.append_eq_nil, ite_nil_cons_eq_nil, qposErrors_eq_nil,
      and_assoc, Option.isSome_iff_ne_none]

theorem frameErrorsFrom_eq_nil (arr : List Frame) : ∀ n : Nat,
    frameErrorsFrom n arr = [] ↔
      ((arr.enumFrom n).all fun p => frameStructOkB p.1 p.2) = true := by
  induction arr with
  | nil => intro n; simp [frameErrorsFrom]
  | cons f rest ih =>
    intro n
    simp [frameErrorsFrom, List.enumFrom_cons, List.append_eq_nil,
      frameErrors_eq_nil, ih]

theorem dataArrayErrors_eq_nil (arr : List Frame) :
    dataArrayErrors arr = [] ↔
      (!arr.isEmpty && (arr.enum).all fun p => frameStructOkB p.1 p.2) = true := by
  rw [dataArrayErrors]
  cases arr with
  | nil => simp
  | cons f rest =>
    rw [if_neg (by simp)]
    rw [show (f :: rest).enum = (f :: rest).enumFrom 0 from rfl]
    simp only [List.isEmpty_cons, Bool.not_false, Bool.true_and]
    exact frameErrorsFrom_eq_nil (f :: rest) 0

theorem missingImagesFrom_eq_nil (fs : List String) (arr : List Frame) : ∀ n : Nat,
    missingImagesFrom fs n arr = [] ↔ (arr.all (colorsOkB fs)) = true := by
  induction arr with
  | nil => intro n; simp [missingImagesFrom]
  | cons f rest ih =>
    intro n
    rw [missingImagesFrom, List.append_eq_nil, List.all_cons, Bool.and_eq_true,
      ih, List.filterMap_eq_nil_iff]
    apply and_congr_left'
    rw [colorsOkB, List.all_eq_true]
    refine forall₂_congr fun cp _ => ?_
    simp [ite_none_some_eq_none]

theorem imageErrors_eq_nil (arr : List Frame) (fs : List String) :
    imageErrors arr fs = [] ↔ (arr.all (colorsOkB fs)) = true := by
  rw [imageErrors, ← missingImagesFrom_eq_nil fs arr 0]
  cases h : (missingImages arr fs).isEmpty with
  | true => simp_all [List.isEmpty_iff, missingImages]
  | false => simp_all [List.isEmpty_iff, missingImages]

theorem missingDepthsFrom_eq_nil (fs : List String) (arr : List Frame) : ∀ n : Nat,
    missingDepthsFrom fs n arr = [] ↔ (arr.all (depthsOkB fs)) = true := by
  induction arr with
  | nil => intro n; simp [missingDepthsFrom]
  | cons f rest ih =>
    intro n
    rw [missingDepthsFrom, List.append_eq_nil, List.all_cons, Bool.and_eq_true,
      ih, List.filterMap_eq_nil_iff]
    apply and_congr_left'
    rw [depthsOkB, List.all_eq_true]
    refine forall₂_congr fun dp _ => ?_
    simp [ite_none_some_eq_none]

theorem hasDepth_false_all_ok (arr : List Frame) (fs : List String)
    (h : hasDepth arr = false) : (arr.all (depthsOkB fs)) = true := by
  rw [List.all_eq_true]
  intro f hf
  rw [hasDepth, List.any_eq_false] at h
  have h2 := h f hf
  have hnil : f.depths.getD [] = [] := by
    simpa [List.isEmpty_iff] using h2
  simp [depthsOkB, hnil]

theorem depthErrors_eq_nil (arr : List Frame) (fs : List String) :
    (depthFindings arr fs).1 = [] ↔ (arr.all (depthsOkB fs)) = true := by
  rw [depthFindings]
  cases h : hasDepth arr with
  | false => simpa using hasDepth_false_all_ok arr fs h
  | true =>
    rw [← missingDepthsFrom_eq_nil fs arr 0]
    cases hm : (missingDepths arr fs).isEmpty <;>
      simp_all [List.isEmpty_iff, missingDepths]

theorem missingAudiosFrom_eq_nil (fs : List String) (arr : List Frame) : ∀ n : Nat,
    missingAudiosFrom fs n arr = [] ↔ (arr.all (audioOkB fs)) = true := by
  induction arr with
  | nil => intro n; simp [missingAudiosFrom]
  | cons f rest ih =>
    intro n
    rw [missingAudiosFrom, List.append_eq_nil, List.all_cons, Bool.and_eq_true, ih]
    apply and_congr_left'
    rw [audioOkB]
    cases f.audios with
    | none => simp
    | some s =>
      by_cases hs : s = "" <;> by_cases hc : fs.contains s <;> simp [hs, hc]

theorem hasAudio_false_all_ok (arr : List Frame) (fs : List String)
    (h : hasAudio arr = false) : (arr.all (audioOkB fs)) = true := by
  rw [List.all_eq_true]
  intro f hf
  rw [hasAudio, List.any_eq_false] at h
  have := h f hf
  rw [audioTruthy] at this
  rw [audioOkB]
  cases ha : f.audios with
  | none => simp
  | some s => simp_all [ha]

theorem audioErrors_eq_nil (arr : List Frame) (fs : List String) :
    (audioFindings arr fs).1 = [] ↔ (arr.all (audioOkB fs)) = true := by
  rw [audioFindings]
  cases h : hasAudio arr with
  | false => simpa using hasAudio_false_all_ok arr fs h
  | true =>
    rw [← missingAudiosFrom_eq_nil fs arr 0]
    cases hm : (missingAudios arr fs).isEmpty <;>
      simp_all [List.isEmpty_iff, missingAudios]

theorem missingSubIndexFrom_eq_nil (arr : List Frame) : ∀ n : Nat,
    missingSubIndexFrom n arr = [] ↔
      (arr.all fun f => f.sub_index.isSome) = true := by
  induction arr with
  | nil => intro n; simp [missingSubIndexFrom]
  | cons f rest ih =>
    intro n
    cases h : f.sub_index.isSome <;>
      simp [missingSubIndexFrom, h, ih]

theorem subIndexErrors_eq_nil (arr : List Frame) :
    (checkSubIndex arr).errors = [] ↔
      (arr.isEmpty || arr.all fun f => f.sub_index.isSome) = true := by
  rw [checkSubIndex]
  cases he : arr.isEmpty with
  | true => simp [he]
  | false =>
    cases hm : (missingSubIndex arr).isEmpty with
    | true =>
      have hall := (missingSubIndexFrom_eq_nil arr 0).mp
        (by simpa [List.isEmpty_iff, missingSubIndex] using hm)
      simp [he, hm, hall]
    | false =>
      have hne : ¬ ((arr.all fun f => f.sub_index.isSome) = true) := by
        intro hall
        have hzero : missingSubIndexFrom 0 arr = [] :=
          (missingSubIndexFrom_eq_nil arr 0).mpr hall
        simp [missingSubIndex, hzero] at hm
      simp [he, hm, missingSubIndexErrors, hne]

/-- The central characterisation: the accumulated error list is empty exactly
on well-formed inputs. -/
theorem allErrors_eq_nil (rec : EpisodeRecord) (fs : List String) :
    allErrors rec fs = [] ↔ wellFormedB rec fs = true := by
  rw [allErrors, wellFormedB]
  simp only [List.append_eq_nil, structureErrors_eq_nil, infoErrors_eq_nil,
    dataArrayErrors_eq_nil, imageErrors_eq_nil, depthErrors_eq_nil,
    audioErrors_eq_nil, subIndexErrors_eq_nil, Bool.and_eq_true,
    Bool.or_eq_true, Bool.not_eq_true', List.isEmpty_iff,
    List.isEmpty_eq_false]
  tauto

/-! ### Counting helpers -/

theorem length_filterMap_eq_countP {α β : Type} (g : α → Option β) (p : α → Bool)
    (h : ∀ a, (g a).isSome = p a) : ∀ l : List α,
    (l.filterMap g).length = l.countP p := by
  intro l
  induction l with
  | nil => simp
  | cons a l ih =>
    rw [List.filterMap_cons, List.countP_cons]
    cases hg : g a with
    | none =>
      have hp : p a = false := by rw [← h a, hg]; rfl
      simp [hp, ih]
    | some b =>
      have hp : p a = true := by rw [← h a, hg]; rfl
      simp [hp, ih]

theorem countP_enumFrom {α : Type} (p : α → Bool) (l : List α) : ∀ n : Nat,
    ((l.enumFrom n).countP fun q => p q.2) = l.countP p := by
  induction l with
  | nil => intro n; simp
  | cons a l ih =>
    intro n
    rw [List.enumFrom_cons, List.countP_cons, List.countP_cons, ih]

/-! ### Claim support: image references and camera tallies -/

/-- Number of `colors` references whose path does not exist. -/
def missingRefCount (arr : List Frame) (fs : List String) : Nat :=
  (arr.map fun f => (f.colors.getD []).countP fun cp => !fs.contains cp.2).sum

theorem missingImagesFrom_length (fs : List String) (arr : List Frame) : ∀ n : Nat,
    (missingImagesFrom fs n arr).length = missingRefCount arr fs := by
  induction arr with
  | nil => intro n; simp [missingImagesFrom, missingRefCount]
  | cons f rest ih =>
    intro n
    rw [missingImagesFrom, List.length_append, ih]
    have hlen : ((f.colors.getD []).filterMap fun cp =>
        if fs.contains cp.2 then none
        else
          let p := cp.2
          some (s!"帧 {n}: {p}")).length =
        (f.colors.getD []).countP fun cp => !fs.contains cp.2 := by
      refine length_filterMap_eq_countP _ _ (fun cp => ?_) _
      cases hc : fs.contains cp.2 <;> simp [hc]
    rw [hlen]
    simp [missingRefCount]

/-- Exactly one entry of `missing_images` per missing reference. -/
theorem missingImages_length (arr : List Frame) (fs : List String) :
    (missingImages arr fs).length = missingRefCount arr fs :=
  missingImagesFrom_length fs arr 0

/-- Dictionary read of the `camera_counts` tally (`camera_counts.get(cam, 0)`;
keys are unique by construction, so first-match lookup is the dictionary
read). -/
def countOf : List (String × Nat) → String → Nat
  | [], _ => 0
  | (k, n) :: rest, cam => if k = cam then n else countOf rest cam

/-- Number of frames referencing camera `cam` in `colors` (each frame's
`colors` is a JSON object, one entry per camera). -/
def camRefCount (arr : List Frame) (cam : String) : Nat :=
  (arr.map fun f => (f.colors.getD []).countP fun cp => cp.1 == cam).sum

theorem countOf_bumpCamera (c cam : String) : ∀ m : List (String × Nat),
    countOf (bumpCamera m c) cam = countOf m cam + (if c = cam then 1 else 0) := by
  intro m
  induction m with
  | nil => by_cases h : c = cam <;> simp [bumpCamera, countOf, h]
  | cons kv rest ih =>
    obtain ⟨k, n⟩ := kv
    by_cases hk : k = c
    · subst hk
      by_cases h : k = cam <;> simp [bumpCamera, countOf, h]
    · rw [show bumpCamera ((k, n) :: rest) c = (k, n) :: bumpCamera rest c by
        simp [bumpCamera, hk]]
      by_cases h : k = cam
      · subst h
        have hc : ¬ c = k := fun hcc => hk hcc.symm
        simp [countOf, hc]
      · simp [countOf, h, ih]

theorem countOf_foldl_bump (cam : String) (entries : List (String × String)) :
    ∀ m : List (String × Nat),
    countOf (entries.foldl (fun m2 cp => bumpCamera m2 cp.1) m) cam =
      countOf m cam + (entries.countP fun cp => cp.1 == cam) := by
  induction entries with
  | nil => intro m; simp
  | cons e rest ih =>
    intro m
    rw [List.foldl_cons, ih, countOf_bumpCamera, List.countP_cons]
    by_cases h : e.1 = cam
    · simp [h, beq_iff_eq]
      omega
    · simp [h, beq_iff_eq]

/-- The per-camera tally equals the number of frames referencing the camera,
independently of which files exist. -/
theorem countOf_cameraCounts (arr : List Frame) (cam : String) :
    countOf (cameraCounts arr) cam = camRefCount arr cam := by
  suffices h : ∀ m : List (String × Nat),
      countOf (arr.foldl (fun m f =>
        (f.colors.getD []).foldl (fun m2 cp => bumpCamera m2 cp.1) m) m) cam =
      countOf m cam + camRefCount arr cam by
    have hh := h []
    simpa [cameraCounts, countOf] using hh
  induction arr with
  | nil => intro m; simp [camRefCount]
  | cons f rest ih =>
    intro m
    rw [List.foldl_cons, ih, countOf_foldl_bump]
    simp only [camRefCount, List.map_cons, List.sum_cons]
    omega

/-! ### Claim support: joint-jump window and counts -/

/-- Per-part offense count: joints of a matching-length `qpos` pair whose
absolute difference exceeds the threshold. -/
def partOffenseCount (prev curr : Frame) (part : String) : Nat :=
  match qposOf prev part, qposOf curr part with
  | some pq, some cq =>
    if pq.length = cq.length then
      (pq.zip cq).countP fun pc => decide (ratAbs (pc.2 - pc.1) > max_jump_threshold)
    else 0
  | _, _ => 0

def pairOffenseCount (prev curr : Frame) : Nat :=
  (["left_arm", "right_arm"].map (partOffenseCount prev curr)).sum

/-- Offending joint/frame pairs inside the checked window. -/
def totalJumpOffenses (arr : List Frame) : Nat :=
  (((arr.zip arr.tail).take 99).map fun pr => pairOffenseCount pr.1 pr.2).sum

theorem jumpMsgsPart_length (prev curr : Frame) (i : Nat) (part : String) :
    (jumpMsgsPart prev curr i part).length = partOffenseCount prev curr part := by
  rw [jumpMsgsPart, partOffenseCount]
  cases h1 : qposOf prev part with
  | none => rfl
  | some pq =>
    cases h2 : qposOf curr part with
    | none => rfl
    | some cq =>
      dsimp only
      by_cases hlen : pq.length = cq.length
      · rw [if_pos hlen, if_pos hlen, ← countP_enumFrom _ _ 0]
        refine length_filterMap_eq_countP _ _ (fun jp => ?_) _
        by_cases hd : ratAbs (jp.2.2 - jp.2.1) > max_jump_threshold <;> simp [hd]
      · rw [if_neg hlen, if_neg hlen]; rfl

theorem jumpMsgs_length (prev curr : Frame) (i : Nat) :
    (jumpMsgs prev curr i).length = pairOffenseCount prev curr := by
  simp [jumpMsgs, pairOffenseCount, jumpMsgsPart_length]

theorem flatMap_jumpMsgs_length (ps : List (Frame × Frame)) : ∀ n : Nat,
    ((ps.enumFrom n).flatMap fun p => jumpMsgs p.2.1 p.2.2 (p.1 + 1)).length =
      (ps.map fun pr => pairOffenseCount pr.1 pr.2).sum := by
  induction ps with
  | nil => intro n; simp
  | cons q rest ih =>
    intro n
    rw [List.enumFrom_cons, List.flatMap_cons, List.length_append, ih,
      jumpMsgs_length]
    simp

/-- One message in `large_jumps` per offending joint/frame pair. -/
theorem largeJumps_length (arr : List Frame) :
    (largeJumps arr).length = totalJumpOffenses arr := by
  rw [largeJumps, totalJumpOffenses,
    show ((arr.zip arr.tail).take 99).enum =
      ((arr.zip arr.tail).take 99).enumFrom 0 from rfl]
  exact flatMap_jumpMsgs_length _ 0

/-- The first `n` consecutive pairs only depend on the first `n + 1`
elements. -/
theorem zip_tail_take {α : Type} : ∀ (n : Nat) (l : List α),
    ((l.take (n + 1)).zip (l.take (n + 1)).tail).take n = (l.zip l.tail).take n := by
  intro n
  induction n with
  | zero => intro l; simp
  | succ n ih =>
    intro l
    match l with
    | [] => simp
    | [a] => simp
    | a :: b :: rest =>
      rw [show (a :: b :: rest).take (n + 2) = a :: b :: rest.take n by
        simp [List.take_succ_cons]]
      rw [show (a :: b :: rest.take n).tail = b :: rest.take n from rfl,
        show (a :: b :: rest).tail = b :: rest from rfl]
      rw [List.zip_cons_cons, List.zip_cons_cons, List.take_succ_cons,
        List.take_succ_cons]
      congr 1
      have hh := ih (b :: rest)
      rw [show (b :: rest).take (n + 1) = b :: rest.take n by
        simp [List.take_succ_cons]] at hh
      rw [show (b :: rest.take n).tail = rest.take n from rfl] at hh
      rw [show (b :: rest).tail = rest from rfl] at hh
      exact hh

/-- The jump scan is bounded to the first 100 frames. -/
theorem largeJumps_take_100 (arr : List Frame) :
    largeJumps (arr.take 100) = largeJumps arr := by
  rw [largeJumps, largeJumps]
  have hz := zip_tail_take 99 arr
  norm_num at hz
  rw [hz]

theorem jointContinuityWarnings_length (arr : List Frame) :
    (jointContinuityWarnings arr).length =
      if (largeJumps arr).length = 0 then 0
      else 1 + min 5 (largeJumps arr).length := by
  rw [jointContinuityWarnings]
  cases h : (largeJumps arr).isEmpty with
  | true =>
    have : largeJumps arr = [] := by simpa [List.isEmpty_iff] using h
    simp [this]
  | false =>
    have : largeJumps arr ≠ [] := by simpa [List.isEmpty_eq_false] using h
    have hne : (largeJumps arr).length ≠ 0 := by simpa using this
    simp [h, hne, List.length_take, Nat.min_comm]
    omega

/-! ### Claim support: sub-index regressions -/

/-- Number of strict decreases between consecutive `sub_index` values. -/
def decreaseCount (subs : List Int) : Nat :=
  (subs.zip subs.tail).countP fun ab => decide (ab.2 < ab.1)

/-- One `non_monotonic` message per strict decrease. -/
theorem nonMonotonic_length (subs : List Int) :
    (nonMonotonic subs).length = decreaseCount subs := by
  rw [nonMonotonic, decreaseCount, ← countP_enumFrom _ _ 0,
    show (subs.zip subs.tail).enum = (subs.zip subs.tail).enumFrom 0 from rfl]
  refine length_filterMap_eq_countP _ _ (fun p => ?_) _
  by_cases hd : p.2.2 < p.2.1 <;> simp [hd]

/-! ### Claim support: `check_all` projections -/

theorem checkAll_some (rec : EpisodeRecord) (fs : List String) (rep : Report)
    (h : checkAll rec fs = some rep) :
    ∃ w, continuityFindings (rec.data.getD []) = some w ∧
      rep = buildReport rec fs w := by
  rw [checkAll] at h
  cases hc : continuityFindings (rec.data.getD []) with
  | none => rw [hc] at h; exact absurd h (by simp)
  | some w =>
    rw [hc] at h
    exact ⟨w, rfl, (Option.some_inj.mp h).symm⟩

theorem checkAll_some_errors (rec : EpisodeRecord) (fs : List String) (rep : Report)
    (h : checkAll rec fs = some rep) :
    rep.errors = allErrors rec fs ∧ rep.success = (allErrors rec fs).isEmpty := by
  obtain ⟨w, _, hrep⟩ := checkAll_some rec fs rep h
  subst hrep
  exact ⟨rfl, rfl⟩

/-! ### Concrete sample episodes -/

def emptyReport : Report := ⟨true, [], [], [], none, none⟩

def samplePart : PartData := ⟨some [0, 0]⟩

def sampleColorPath : String := "colors/000000_cam_high.jpg"

/-- A structurally complete frame at position 0, carrying `sub_index 0`;
its image reference exists in `sampleFs`. -/
def sampleFrame : Frame :=
  ⟨some 0, some [("cam_high", sampleColorPath)], some [], none,
   some [("left_arm", samplePart)], some [("left_arm", samplePart)], some 0⟩

def sampleText : List (String × String) := [("goal", "grasp the cup")]

def sampleFs : List String := [sampleColorPath]

/-- A record the checker passes: all required fields, one complete frame. -/
def recWF : EpisodeRecord :=
  ⟨some requiredInfoFields, some sampleText, some [sampleFrame]⟩

/-- Like `sampleFrame` but with no `sub_index` key. -/
def frameNoSub : Frame :=
  ⟨some 0, some [("cam_high", sampleColorPath)], some [], none,
   some [("left_arm", samplePart)], some [("left_arm", samplePart)], none⟩

def arrNoSub : List Frame := [frameNoSub]

/-- A record in which no frame at all carries `sub_index`, everything else
being complete and all media existing. -/
def recNoSub : EpisodeRecord :=
  ⟨some requiredInfoFields, some sampleText, some arrNoSub⟩

/-- One frame whose single image reference does not exist on an empty
filesystem. -/
def arrMissingImg : List Frame := [sampleFrame]

def emptyFs : List String := []

def recMissingImg : EpisodeRecord :=
  ⟨some requiredInfoFields, some sampleText, some arrMissingImg⟩

/-- A frame whose `left_arm` state/action `qpos` is the single value `q`. -/
def frameQ (i : Nat) (q : Rat) : Frame :=
  ⟨some (i : Int), some [], some [], none, some [("left_arm", ⟨some [q]⟩)],
   some [("left_arm", ⟨some [q]⟩)], some 0⟩

/-- Two consecutive frames whose `left_arm` joint 0 jumps by 1. -/
def arrJump : List Frame := [frameQ 0 0, frameQ 1 1]

/-- A minimal frame used by the segmentation examples. -/
def subFrame (i : Nat) (s : Int) : Frame :=
  ⟨some (i : Int), some [], some [], none, some [], some [], some s⟩

def subSeq9 : List Int := [0, 0, 0, 1, 1, 2, 2, 2, 2]

def arr9 : List Frame :=
  [subFrame 0 0, subFrame 1 0, subFrame 2 0, subFrame 3 1, subFrame 4 1,
   subFrame 5 2, subFrame 6 2, subFrame 7 2, subFrame 8 2]

def subSeq4 : List Int := [0, 1, 0, 1]

def arr4 : List Frame :=
  [subFrame 0 0, subFrame 1 1, subFrame 2 0, subFrame 3 1]

/-- A record whose `data` array is present but empty. -/
def recEmptyData : EpisodeRecord :=
  ⟨some requiredInfoFields, some sampleText, some []⟩

/-! ### Claim C1 -/

/-- Modelled from the spec's words (claim C1 as stated): `sub_index`, "if
used", is present on all frames — i.e. all-or-nothing. -/
def subIndexAllOrNothingB (arr : List Frame) : Bool :=
  (arr.all fun f => f.sub_index.isSome) || (arr.all fun f => f.sub_index.isNone)

/-- Modelled from the spec's words (claim C1 as stated): every required
field present, every frame's `idx` equal to its position, every referenced
media path existing, and `sub_index` present on all frames *if used*. -/
def claimedCompleteB (rec : EpisodeRecord) (fs : List String) : Bool :=
  let arr := rec.data.getD []
  rec.info.isSome && rec.text.isSome && rec.data.isSome &&
  requiredInfoFields.all (fun k => (rec.info.getD []).contains k) &&
  (arr.enum).all (fun p => frameStructOkB p.1 p.2) &&
  arr.all (colorsOkB fs) &&
  arr.all (depthsOkB fs) &&
  arr.all (audioOkB fs) &&
  subIndexAllOrNothingB arr

/-- C1 (counterexample): a record satisfying every condition of the claim as
stated — required fields present, matching `idx`, all media existing,
`sub_index` unused (absent from every frame, so "present if used" holds) —
still ends with a non-empty error list: the code requires `sub_index` on
every frame unconditionally. -/
theorem c1_counterexample :
    claimedCompleteB recNoSub sampleFs = true ∧
      ((checkAll recNoSub sampleFs).getD emptyReport).errors ≠ [] := by
  constructor
  · decide
  · decide

/-- C1 (amended): the verdict of `check_all` is `true` exactly when the
accumulated error list is empty (warnings never enter the verdict), and the
error list is empty exactly when every required field is present, the
`data` array is non-empty, every frame's `idx` equals its position, every
referenced media path exists, and `sub_index` is present on every frame
(unconditionally, not merely "if used"). -/
theorem c1_verdict (rec : EpisodeRecord) (fs : List String) (rep : Report)
    (h : checkAll rec fs = some rep) :
    (rep.success = true ↔ rep.errors = []) ∧
      (rep.errors = [] ↔ wellFormedB rec fs = true) := by
  obtain ⟨herr, hsucc⟩ := checkAll_some_errors rec fs rep h
  constructor
  · rw [hsucc, herr, List.isEmpty_iff]
  · rw [herr]
    exact allErrors_eq_nil rec fs

theorem c1_witness :
    (((checkAll recWF sampleFs).getD emptyReport).success = true ↔
        ((checkAll recWF sampleFs).getD emptyReport).errors = []) ∧
      (((checkAll recWF sampleFs).getD emptyReport).errors = [] ↔
        wellFormedB recWF sampleFs = true) :=
  c1_verdict recWF sampleFs ((checkAll recWF sampleFs).getD emptyReport) (by rfl)

/-! ### Claim C2 -/

/-- C2 (counterexample): in a record where no frame at all carries
`sub_index`, the hard error fires anyway — contradicting the claim that the
error occurs only when some frames carry it and others do not. -/
theorem c2_counterexample :
    (arrNoSub.all fun f => f.sub_index.isNone) = true ∧
      (checkSubIndex arrNoSub).errors ≠ [] := by
  constructor
  · decide
  · decide

/-- C2 (amended): the missing-`sub_index` hard error fires exactly when some
frame lacks `sub_index` — including when every frame lacks it — and when it
fires, the remaining segmentation steps are skipped: no segmentation
warnings and no transition or segment analysis are produced. -/
theorem c2_missing_sub_index (arr : List Frame) :
    ((checkSubIndex arr).errors ≠ [] ↔ (arr.any fun f => f.sub_index.isNone) = true) ∧
      ((arr.any fun f => f.sub_index.isNone) = true →
        (checkSubIndex arr).warnings = [] ∧
          (checkSubIndex arr).transitions = none ∧
          (checkSubIndex arr).segments = none) := by
  have hmiss : (arr.any fun f => f.sub_index.isNone) = true →
      (missingSubIndex arr).isEmpty = false := by
    intro hany
    cases hm : (missingSubIndex arr).isEmpty with
    | false => rfl
    | true =>
      have hall := (missingSubIndexFrom_eq_nil arr 0).mp
        (by simpa [List.isEmpty_iff, missingSubIndex] using hm)
      rw [List.all_eq_true] at hall
      rw [List.any_eq_true] at hany
      obtain ⟨f, hf, hnone⟩ := hany
      have hs := hall f hf
      rw [Option.isNone_iff_eq_none] at hnone
      rw [hnone] at hs
      exact absurd hs (by simp)
  constructor
  · rw [Ne, subIndexErrors_eq_nil]
    cases he : arr.isEmpty with
    | true =>
      have : arr = [] := by simpa [List.isEmpty_iff] using he
      subst this
      simp
    | false =>
      simp only [he, Bool.false_or]
      rw [List.all_eq_true, List.any_eq_true]
      constructor
      · intro hnot
        rcases not_forall.mp hnot with ⟨f, hnf⟩
        rcases Classical.em (f ∈ arr) with hf | hf
        · refine ⟨f, hf, ?_⟩
          have : ¬ f.sub_index.isSome = true := fun hs => hnf (fun _ => hs)
          simp [Option.isNone_iff_eq_none]
          simpa [Option.isSome_iff_ne_none] using this
        · exact absurd (fun h => absurd h hf) hnf
      · rintro ⟨f, hf, hnone⟩ hall
        have hs := hall f hf
        rw [Option.isNone_iff_eq_none] at hnone
        rw [hnone] at hs
        exact absurd hs (by simp)
  · intro hany
    have hne : arr.isEmpty = false := by
      cases arr with
      | nil => simp at hany
      | cons f rest => rfl
    have hm := hmiss hany
    rw [checkSubIndex]
    simp [hne, hm]

theorem c2_witness :
    ((checkSubIndex arrNoSub).errors ≠ [] ↔
        (arrNoSub.any fun f => f.sub_index.isNone) = true) ∧
      ((checkSubIndex arrNoSub).warnings = [] ∧
        (checkSubIndex arrNoSub).transitions = none ∧
        (checkSubIndex arrNoSub).segments = none) :=
  ⟨(c2_missing_sub_index arrNoSub).1,
   (c2_missing_sub_index arrNoSub).2 (by decide)⟩

/-! ### Claim C3 -/

/-- C3 (counterexample): one missing image path adds **two** entries to the
error list (the aggregate count line plus the per-path line), not exactly
one error per missing path. -/
theorem c3_counterexample :
    (missingImages arrMissingImg emptyFs).length = 1 ∧
      (imageErrors arrMissingImg emptyFs).length = 2 := by
  constructor
  · decide
  · decide

/-- C3 (amended): each missing `colors` path yields exactly one entry of the
resolver's missing-file list (the error list then receives an aggregate
line plus per-path lines capped at 10); the per-camera tally counts every
reference regardless of file existence; and any missing image makes the
verdict fail. -/
theorem c3_missing_images (arr : List Frame) (fs : List String)
    (rec : EpisodeRecord) (rep : Report) (hdata : rec.data = some arr)
    (h : checkAll rec fs = some rep) :
    (missingImages arr fs).length = missingRefCount arr fs ∧
      (∀ cam : String, countOf (cameraCounts arr) cam = camRefCount arr cam) ∧
      (missingImages arr fs ≠ [] → rep.success = false) := by
  refine ⟨missingImages_length arr fs, fun cam => countOf_cameraCounts arr cam, ?_⟩
  intro hmiss
  obtain ⟨herr, hsucc⟩ := checkAll_some_errors rec fs rep h
  rw [hsucc]
  have harr : rec.data.getD [] = arr := by rw [hdata]; rfl
  have himg : imageErrors arr fs ≠ [] := by
    rw [imageErrors]
    have : (missingImages arr fs).isEmpty = false := by
      simpa [List.isEmpty_eq_false] using hmiss
    simp [this]
  have : allErrors rec fs ≠ [] := by
    intro hall
    simp only [allErrors] at hall
    rw [harr] at hall
    exact himg
      (List.append_eq_nil.mp
        (List.append_eq_nil.mp
          (List.append_eq_nil.mp (List.append_eq_nil.mp hall).1).1).1).2
  simpa [List.isEmpty_eq_false] using this

theorem c3_witness :
    ((missingImages arrMissingImg emptyFs).length =
        missingRefCount arrMissingImg emptyFs ∧
      (∀ cam : String,
        countOf (cameraCounts arrMissingImg) cam = camRefCount arrMissingImg cam) ∧
      (((checkAll recMissingImg emptyFs).getD emptyReport).success = false)) := by
  have hmain := c3_missing_images arrMissingImg emptyFs recMissingImg
    ((checkAll recMissingImg emptyFs).getD emptyReport) (by rfl) (by rfl)
  exact ⟨hmain.1, hmain.2.1, hmain.2.2 (by decide)⟩

/-! ### Claim C4 -/

unseal Rat.sub Rat.ofScientific in
/-- C4 (counterexample): a single offending joint/frame pair (a jump of 1 in
`left_arm[0]` between frames 0 and 1) produces two warnings — the count line
plus the detail line — not exactly one warning per offending pair. -/
theorem c4_counterexample :
    (largeJumps arrJump).length = 1 ∧
      (jointContinuityWarnings arrJump).length = 2 := by
  constructor
  · decide
  · decide

/-- C4 (amended): the jump scan is bounded to the first 100 frames (its
findings are invariant under truncating the array to 100 frames, so an
offending difference at frame 150 contributes nothing); within the window
the findings list holds exactly one message per offending joint/frame pair;
the warning list receives a count line plus the first five findings. -/
theorem c4_jump_window (arr : List Frame) :
    largeJumps (arr.take 100) = largeJumps arr ∧
      (largeJumps arr).length = totalJumpOffenses arr ∧
      (jointContinuityWarnings arr).length =
        (if (largeJumps arr).length = 0 then 0
         else 1 + min 5 (largeJumps arr).length) :=
  ⟨largeJumps_take_100 arr, largeJumps_length arr,
   jointContinuityWarnings_length arr⟩

/-! ### Claim C5 -/

/-- C5: an empty `data` array puts the hard error `data数组为空` into the
error list — the per-frame scan contributes nothing else from that check —
so the verdict is failure, never a vacuous pass. -/
theorem c5_empty_data (rec : EpisodeRecord) (fs : List String) (rep : Report)
    (hdata : rec.data.getD [] = []) (h : checkAll rec fs = some rep) :
    dataArrayErrors (rec.data.getD []) = ["data数组为空"] ∧
      "data数组为空" ∈ rep.errors ∧ rep.success = false := by
  obtain ⟨herr, hsucc⟩ := checkAll_some_errors rec fs rep h
  have hda : dataArrayErrors (rec.data.getD []) = ["data数组为空"] := by
    rw [hdata]
    rfl
  have hmem : "data数组为空" ∈ allErrors rec fs := by
    simp only [allErrors]
    rw [hda]
    simp [List.mem_append]
  refine ⟨hda, by rw [herr]; exact hmem, ?_⟩
  rw [hsucc]
  have hne : allErrors rec fs ≠ [] := List.ne_nil_of_mem hmem
  simpa [List.isEmpty_eq_false] using hne

theorem c5_witness :
    dataArrayErrors (recEmptyData.data.getD []) = ["data数组为空"] ∧
      "data数组为空" ∈ ((checkAll recEmptyData emptyFs).getD emptyReport).errors ∧
      ((checkAll recEmptyData emptyFs).getD emptyReport).success = false :=
  c5_empty_data recEmptyData emptyFs
    ((checkAll recEmptyData emptyFs).getD emptyReport) (by rfl) (by rfl)

/-! ### Claim C6 -/

/-- C6: on the `sub_index` sequence `[0,0,0,1,1,2,2,2,2]` the analysis
reports exactly the 2 transitions 2→3 and 4→5, exactly the 3 maximal
segments — label 0 over frames 0–2 (length 3), label 1 over frames 3–4
(length 2), label 2 over frames 5–8 (length 4) — and flags the length-2
segment as shorter than the fixed minimum of 10 frames. -/
theorem c6_segmentation :
    (checkSubIndex arr9).transitions = some [⟨2, 3, 0, 1⟩, ⟨4, 5, 1, 2⟩] ∧
      (checkSubIndex arr9).segments =
        some [⟨0, 0, 2, 3⟩, ⟨1, 3, 4, 2⟩, ⟨2, 5, 8, 4⟩] ∧
      ⟨1, 3, 4, 2⟩ ∈ shortSegments (segmentsOf subSeq9) ∧
      "  sub_index 1: 2 帧" ∈ (checkSubIndex arr9).warnings := by
  refine ⟨?_, ?_, ?_, ?_⟩ <;> decide

/-! ### Claim C7 -/

/-- C7 (counterexample): the sequence `[0,1,0,1]` has exactly one strict
decrease but produces two regression warnings — the summary line plus the
detail line — not exactly one. -/
theorem c7_counterexample :
    (nonMonotonic subSeq4).length = 1 ∧
      (monotonicWarnings subSeq4).length = 2 := by
  constructor
  · decide
  · decide

/-- C7 (amended): the regression findings hold exactly one entry per strict
decrease of consecutive `sub_index` values, and decreases never produce
errors (a record whose frames all carry `sub_index` accumulates no
`sub_index` error); on `[0,1,0,1]` the findings are exactly the single
regression at frames 1→2, the appended warnings are the summary plus that
entry, and the dense label set `{0,1}` yields no density warning. -/
theorem c7_regressions :
    (∀ subs : List Int, (nonMonotonic subs).length = decreaseCount subs) ∧
      (∀ arr : List Frame, (arr.all fun f => f.sub_index.isSome) = true →
        (checkSubIndex arr).errors = []) ∧
      nonMonotonic subSeq4 = ["帧 1 -> 2: 1 -> 0"] ∧
      monotonicWarnings subSeq4 =
        ["sub_index不是单调递增的，发现 1 处回退", "  帧 1 -> 2: 1 -> 0"] ∧
      densityWarnings subSeq4 = [] := by
  refine ⟨nonMonotonic_length, ?_, by decide, by decide, by decide⟩
  intro arr hall
  rw [subIndexErrors_eq_nil]
  simp [hall]

theorem c7_witness :
    (nonMonotonic subSeq4).length = decreaseCount subSeq4 ∧
      (checkSubIndex arr4).errors = [] :=
  ⟨c7_regressions.1 subSeq4, c7_regressions.2.1 arr4 (by decide)⟩

/-! ### Claim C8 -/

/-- C8: when loading fails (missing or unreadable file, or malformed JSON),
`check_all` returns failure immediately with exactly the load error as the
whole error list, an empty warning list, and no downstream findings of any
kind. -/
theorem c8_load_short_circuit (lo : LoadOutcome) (fs : List String) (e : String)
    (h : loadErrorMsg lo = some e) :
    checkAllFromLoad lo fs = some ⟨false, [e], [], [], none, none⟩ := by
  cases lo with
  | ok rec => exact absurd h (by simp [loadErrorMsg])
  | fileMissing p =>
    rw [← Option.some_inj.mp h]
    rfl
  | notAFile p =>
    rw [← Option.some_inj.mp h]
    rfl
  | parseError m =>
    rw [← Option.some_inj.mp h]
    rfl
  | readError m =>
    rw [← Option.some_inj.mp h]
    rfl

theorem c8_witness :
    checkAllFromLoad (LoadOutcome.parseError ("Expecting value: line 1 column 1"))
        emptyFs =
      some ⟨false, ["JSON解析错误: Expecting value: line 1 column 1"],
        [], [], none, none⟩ :=
  c8_load_short_circuit
    (LoadOutcome.parseError ("Expecting value: line 1 column 1")) emptyFs
    ("JSON解析错误: Expecting value: line 1 column 1") (by rfl)

/-! ### Claim C9 -/

/-- C9: the check is deterministic — two runs of the full pipeline on the
same unmodified record and the same filesystem state produce identical
error lists, identical warning lists, and the same verdict. -/
theorem c9_deterministic (lo : LoadOutcome) (fs : List String) (rep1 rep2 : Report)
    (h1 : checkAllFromLoad lo fs = some rep1)
    (h2 : checkAllFromLoad lo fs = some rep2) :
    rep1.errors = rep2.errors ∧ rep1.warnings = rep2.warnings ∧
      rep1.success = rep2.success := by
  rw [h1] at h2
  rw [Option.some_inj.mp h2]
  exact ⟨rfl, rfl, rfl⟩

theorem c9_witness :
    ((checkAllFromLoad (LoadOutcome.ok recWF) sampleFs).getD emptyReport).errors =
        ((checkAllFromLoad (LoadOutcome.ok recWF) sampleFs).getD emptyReport).errors ∧
      ((checkAllFromLoad (LoadOutcome.ok recWF) sampleFs).getD emptyReport).warnings =
        ((checkAllFromLoad (LoadOutcome.ok recWF) sampleFs).getD emptyReport).warnings ∧
      ((checkAllFromLoad (LoadOutcome.ok recWF) sampleFs).getD emptyReport).success =
        ((checkAllFromLoad (LoadOutcome.ok recWF) sampleFs).getD emptyReport).success :=
  c9_deterministic (LoadOutcome.ok recWF) sampleFs
    ((checkAllFromLoad (LoadOutcome.ok recWF) sampleFs).getD emptyReport)
    ((checkAllFromLoad (LoadOutcome.ok recWF) sampleFs).getD emptyReport)
    (by rfl) (by rfl)

/-! ### Claim C10 -/

/-- C10: with fewer than 2 frames, the continuity pass emits exactly the
single too-few-frames warning and performs neither the index-gap nor the
joint-jump check; consequently a well-formed single-frame episode passes
while carrying that warning. -/
theorem c10_single_frame :
    (∀ arr : List Frame, arr.length < 2 →
        continuityFindings arr = some [tooFewFramesWarning]) ∧
      (∀ (rec : EpisodeRecord) (fs : List String) (rep : Report),
        wellFormedB rec fs = true → (rec.data.getD []).length = 1 →
        checkAll rec fs = some rep →
        rep.success = true ∧ tooFewFramesWarning ∈ rep.warnings) := by
  have hfew : ∀ arr : List Frame, arr.length < 2 →
      continuityFindings arr = some [tooFewFramesWarning] := by
    intro arr hlen
    rw [continuityFindings, if_pos hlen]
  refine ⟨hfew, ?_⟩
  intro rec fs rep hwf hlen h
  obtain ⟨w, hw, hrep⟩ := checkAll_some rec fs rep h
  have hsome := hfew (rec.data.getD []) (by omega)
  rw [hsome] at hw
  have hw1 : w = [tooFewFramesWarning] := (Option.some_inj.mp hw).symm
  subst hrep
  subst hw1
  constructor
  · show (allErrors rec fs).isEmpty = true
    rw [(allErrors_eq_nil rec fs).mpr hwf]
    rfl
  · show tooFewFramesWarning ∈ allWarnings rec fs [tooFewFramesWarning]
    simp [allWarnings, List.mem_append]

theorem c10_witness :
    continuityFindings ([] : List Frame) = some [tooFewFramesWarning] ∧
      (((checkAll recWF sampleFs).getD emptyReport).success = true ∧
        tooFewFramesWarning ∈ ((checkAll recWF sampleFs).getD emptyReport).warnings) :=
  ⟨c10_single_frame.1 [] (by decide),
   c10_single_frame.2 recWF sampleFs ((checkAll recWF sampleFs).getD emptyReport)
     (by decide) (by decide) (by rfl)⟩

end DataCheck
